import Mathlib

/-!
# Emporium-API: the categories router and the Category model

A shallow embedding of `routes/categories.js` (the route table of the
categories router, with the swagger annotation of every registration) and of
`models/Category.js` (the schema of a category and its pre-save hook),
followed by the properties proved about them.

Express runs the handlers of a route in the order they were registered: a
handler that calls `next()` hands the request to the following one, a handler
that calls `next(err)` or answers the request ends the chain.
-/

namespace Emporium

/-! ## Requests -/

/-- HTTP methods a client can send to the router. -/
inductive Method where
  | GET | HEAD | POST | PUT | PATCH | DELETE
  deriving DecidableEq, Repr

/-- Roles of a caller identity (`role: enum{user, seller, admin}`). -/
inductive Role where
  | user | seller | admin
  deriving DecidableEq, Repr

/-- Caller identity attached to the request context (`req.user`). -/
structure CallerIdentity where
  id : String
  role : Role
  tokenExpiry : Nat
  deriving DecidableEq, Repr

/-- One page reference of the pagination block. -/
structure PageRef where
  page : Nat
  limit : Nat
  deriving DecidableEq, Repr

/-- Pagination block of the envelope: absent keys are `none`. -/
structure Pagination where
  prev : Option PageRef
  next : Option PageRef
  deriving DecidableEq, Repr

/-- Result envelope the list middleware attaches to the request context. -/
structure ResultEnvelope where
  success : Bool
  count : Nat
  pagination : Pagination
  data : List String
  deriving DecidableEq, Repr

/-- Request context threaded through a handler chain. `path` holds the
decoded segments of the URL below the mount point of the router (`[]` is `/`,
`["42"]` is `/42`); a URL whose parameter does not percent-decode is answered
400 by Express before any handler and is no `Request` here. `cookieToken` is
the credential cookie a client may send along; `user` and `advancedResults`
are the slots the middleware fills in. -/
structure Request where
  method : Method
  path : List String
  authorization : Option String
  cookieToken : Option String
  query : List (String × String)
  body : String
  user : Option CallerIdentity
  advancedResults : Option ResultEnvelope
  deriving DecidableEq, Repr

/-! ## The route table of `routes/categories.js` -/

/-- Handlers and middleware named in the route table. `authorize` and
`advancedResults` are factories: their arguments are fixed when the route is
registered. -/
inductive Step where
  | protect
  | authorize (roles : List Role)
  | advancedResults (model : String) (populate : Option String)
  | getCategories
  | getCategory
  | createCategory
  | updateCategory
  | deleteCategory
  | productsRouter
  deriving DecidableEq, Repr

/-- Segment of a route path: a literal or a named parameter (`:id`). -/
inductive Seg where
  | lit (s : String)
  | param (name : String)
  deriving DecidableEq, Repr

/-- One registration on the router: `router.use(path, ...)` when `mount`,
else `router.route(path).METHOD(...)`. `security` lists the schemes named
under `security:` in the swagger block written above the registration. -/
structure Layer where
  mount : Bool
  pattern : List Seg
  method : Option Method
  chain : List Step
  security : List String
  deriving DecidableEq, Repr

/-- The call `authorize('seller', 'admin')` of the route table. -/
def sellerOrAdmin : Step := Step.authorize [Role.seller, Role.admin]

/-- The registration `router.use('/:categoryId/products', productsRouter)`. -/
def useProducts : Layer :=
  { mount := true, pattern := [Seg.param "categoryId", Seg.lit "products"],
    method := none, chain := [Step.productsRouter], security := [] }

/-- The registration `router.route('/').get(advancedResults(Category,
'products'), getCategories)`. -/
def getRoot : Layer :=
  { mount := false, pattern := [], method := some Method.GET,
    chain := [Step.advancedResults "Category" (some "products"), Step.getCategories],
    security := [] }

/-- The registration `router.route('/').post(protect, authorize('seller',
'admin'), createCategory)`. -/
def postRoot : Layer :=
  { mount := false, pattern := [], method := some Method.POST,
    chain := [Step.protect, sellerOrAdmin, Step.createCategory],
    security := ["bearerAuth"] }

/-- The registration `router.route('/:id').get(protect, authorize('seller',
'admin'), getCategory)`. -/
def getById : Layer :=
  { mount := false, pattern := [Seg.param "id"], method := some Method.GET,
    chain := [Step.protect, sellerOrAdmin, Step.getCategory],
    security := ["bearerAuth"] }

/-- The registration `router.route('/:id').put(protect, authorize('seller',
'admin'), updateCategory)`. -/
def putById : Layer :=
  { mount := false, pattern := [Seg.param "id"], method := some Method.PUT,
    chain := [Step.protect, sellerOrAdmin, Step.updateCategory],
    security := ["bearerAuth"] }

/-- The registration `router.route('/:id').delete(protect,
authorize('seller', 'admin'), deleteCategory)`. -/
def deleteById : Layer :=
  { mount := false, pattern := [Seg.param "id"], method := some Method.DELETE,
    chain := [Step.protect, sellerOrAdmin, Step.deleteCategory],
    security := ["bearerAuth"] }

/-- The router exported by `routes/categories.js`, in registration order. -/
def router : List Layer :=
  [useProducts, getRoot, postRoot, getById, putById, deleteById]

/-- Whether a step is the Role Gate. -/
def Step.isAuthorize : Step → Bool
  | Step.authorize _ => true
  | _ => false

/-- Whether a step is a resource handler of the categories controller. -/
def Step.isHandler : Step → Bool
  | Step.getCategories => true
  | Step.getCategory => true
  | Step.createCategory => true
  | Step.updateCategory => true
  | Step.deleteCategory => true
  | _ => false

/-- Whether a registration changes state: POST, PUT, PATCH or DELETE. -/
def Layer.mutates (l : Layer) : Bool :=
  l.method = some Method.POST || l.method = some Method.PUT ||
  l.method = some Method.PATCH || l.method = some Method.DELETE

/-- Whether the swagger block of a registration declares `bearerAuth`. -/
def Layer.declaresBearer (l : Layer) : Bool :=
  decide ("bearerAuth" ∈ l.security)

/-! ## Dispatch -/

/-- Match decoded URL segments against a route path. A parameter takes one
non-empty segment, a literal compares without regard to ASCII case; `pfx` is
the prefix matching of `router.use`. -/
def matchPath (pfx : Bool) : List Seg → List String → Bool
  | [], [] => true
  | [], _ :: _ => pfx
  | _ :: _, [] => false
  | Seg.lit s :: ps, x :: xs => (x.toLower == s.toLower) && matchPath pfx ps xs
  | Seg.param _ :: ps, x :: xs => (x != "") && matchPath pfx ps xs

/-- Whether a registration handles a method: a mount takes every method, a
route its own, and a `GET` route also answers `HEAD`. -/
def Layer.handles (l : Layer) (m : Method) : Bool :=
  match l.method with
  | none => true
  | some k => k = m || (m = Method.HEAD && k = Method.GET)

/-- Whether a registration takes the request. -/
def Layer.accepts (l : Layer) (req : Request) : Bool :=
  matchPath l.mount l.pattern req.path && l.handles req.method

/-- First registration of the router that takes the request. -/
def dispatch (req : Request) : Option Layer :=
  router.find? (fun l => l.accepts req)

/-- Chain registered for a method on a route path, if any. -/
def chainOf (m : Method) (pattern : List Seg) : Option (List Step) :=
  (router.find? (fun l => !l.mount && l.pattern = pattern && l.method = some m)).map
    (fun l => l.chain)

/-! ## Running a handler chain -/

/-- Authentication and authorization failures. -/
inductive AuthError where
  | noCredential
  | invalidCredential
  | forbidden
  deriving DecidableEq, Repr

/-- Errors a step can hand to the error channel with `next(err)`. -/
inductive PipelineError where
  | auth (e : AuthError)
  | invalidPagination
  | queryExecution
  | configuration
  | handler (status : Nat) (message : String)
  deriving DecidableEq, Repr

/-- Modelled from the spec: the status the error handler behind the router,
which is not among the sources, gives an authentication or authorization
failure: 401 for a missing or invalid credential, 403 for a role that is not
allowed. -/
def AuthError.httpStatus : AuthError → Nat
  | AuthError.noCredential => 401
  | AuthError.invalidCredential => 401
  | AuthError.forbidden => 403

/-- Comparison operators of a filter condition. -/
inductive Operator where
  | eq | gt | gte | lt | lte | isIn
  deriving DecidableEq, Repr

/-- Condition on one field of a filter. -/
structure Condition where
  op : Operator
  value : String
  deriving DecidableEq, Repr

/-- Query descriptor produced by the query translator. -/
structure QueryDescriptor where
  filter : List (String × Condition)
  sort : List (String × Bool)
  select : Option (List String)
  page : Nat
  limit : Nat
  deriving DecidableEq, Repr

/-- Calls a step can issue against a resource store: the two reads of the
list middleware and, for the controllers, any other operation by name. -/
inductive StoreCall where
  | count (store : String) (filter : List (String × Condition))
  | find (store : String) (filter : List (String × Condition))
      (sort : List (String × Bool)) (select : Option (List String))
      (skip : Nat) (limit : Nat) (populate : Option String)
  | other (store : String) (operation : String)
  deriving DecidableEq, Repr

/-- Store a call is issued against. -/
def StoreCall.store : StoreCall → String
  | StoreCall.count s _ => s
  | StoreCall.find s _ _ _ _ _ _ => s
  | StoreCall.other s _ => s

/-- Populate instruction a call carries: only `find` expands relations. -/
def StoreCall.populate : StoreCall → Option String
  | StoreCall.find _ _ _ _ _ _ p => p
  | _ => none

/-- How a step ends: `next()`, `next(err)`, or a response written by the
step itself. -/
inductive Signal where
  | next (req : Request)
  | fail (e : PipelineError)
  | respond (status : Nat) (body : String)
  deriving DecidableEq, Repr

/-- What one step does with a request: the store calls it issues and the
way it ends. -/
structure StepOut where
  calls : List StoreCall
  signal : Signal
  deriving DecidableEq, Repr

/-- Record of one run of a chain: the steps invoked, each with the request
context it received; the store calls issued, each with the step that issued
it; and the way the chain ended (`next` past the last step falls through to
the following registration). -/
structure Run where
  trace : List (Step × Request)
  calls : List (Step × StoreCall)
  outcome : Signal
  deriving DecidableEq, Repr

/-- Run a chain the way Express does: every step that calls `next()` hands
its request context to the following step, the first step that calls
`next(err)` or answers the request ends the chain. -/
def runChain (beh : Step → Request → StepOut) : List Step → Request → Run
  | [], req => { trace := [], calls := [], outcome := Signal.next req }
  | s :: rest, req =>
    let out := beh s req
    match out.signal with
    | Signal.next req' =>
      let r := runChain beh rest req'
      { trace := (s, req) :: r.trace,
        calls := out.calls.map (fun c => (s, c)) ++ r.calls,
        outcome := r.outcome }
    | sig => { trace := [(s, req)], calls := out.calls.map (fun c => (s, c)), outcome := sig }

/-- Steps a run invoked, in order. -/
def Run.steps (r : Run) : List Step := r.trace.map Prod.fst

/-- Modelled from the spec: the status the error handler behind the router,
which is not among the sources, answers an error of the error channel with.
Authentication and authorization failures are 401 or 403, malformed query
parameters 400, a store execution error 500 unless it is classified as caused
by the client (then 400); a controller's error carries its own status, and a
configuration error is a wiring defect that has no status of its own. -/
def errorStatus (clientCaused : Bool) : PipelineError → Option Nat
  | PipelineError.auth e => some e.httpStatus
  | PipelineError.invalidPagination => some 400
  | PipelineError.queryExecution => some (if clientCaused then 400 else 500)
  | PipelineError.configuration => none
  | PipelineError.handler status _ => some status

/-- HTTP status a run of a chain ends with: the status of the response a step
wrote, or the status the error handler gives the error a step passed to
`next`; a chain that falls through answers nothing itself. -/
def Run.status (clientCaused : Bool) (r : Run) : Option Nat :=
  match r.outcome with
  | Signal.respond status _ => some status
  | Signal.fail e => errorStatus clientCaused e
  | Signal.next _ => none

/-- Run the chain of the registration that takes the request. -/
def handle (beh : Step → Request → StepOut) (req : Request) : Option Run :=
  (dispatch req).map (fun l => runChain beh l.chain req)

/-! ## The middleware behind the route table

`middleware/auth.js`, `middleware/advancedResults.js` and
`controllers/categories.js` are required by the router; what they do is taken
from the specification of the Identity Resolver, the Role Gate, the Result
Paginator and the Advanced Results Middleware. -/

/-- Claims carried by a verified credential. -/
structure TokenClaims where
  id : String
  role : Role
  expiry : Nat
  deriving DecidableEq, Repr

/-- Collaborators of the middleware: how an `Authorization` header value
yields a bearer token, the verification of a token's signature and expiry
against the process-wide key, the identity store, the query translator, the
resource store and the controllers. -/
structure Env where
  bearer : String → Option String
  verify : String → Option TokenClaims
  lookupRole : String → Option Role
  translate : List (String × String) → Except PipelineError QueryDescriptor
  count : String → List (String × Condition) → Option Nat
  find : String → QueryDescriptor → Option String → Option (List String)
  controller : Step → Request → StepOut

/-- Modelled from the spec: the credential lookup of the Identity Resolver of
`middleware/auth.js`. The bearer credential is expected in the standard
`Authorization: Bearer <token>` header, and a missing header yields
`NoCredential`: the header is the one place read, a cookie is not consulted. -/
def findCredential (env : Env) (req : Request) : Option String :=
  req.authorization.bind env.bearer

/-- Modelled from the spec: `resolve` of the Identity Resolver of
`middleware/auth.js`. No credential is `NoCredential`; a credential whose
signature or expiry does not verify is `InvalidCredential`; otherwise the
role is the identity store's when it has one, else the token's claim. -/
def resolve (env : Env) (req : Request) : Except AuthError CallerIdentity :=
  match findCredential env req with
  | none => Except.error AuthError.noCredential
  | some token =>
    match env.verify token with
    | none => Except.error AuthError.invalidCredential
    | some claims =>
      Except.ok { id := claims.id,
                  role := (env.lookupRole claims.id).getD claims.role,
                  tokenExpiry := claims.expiry }

/-- Modelled from the spec: `protect` of `middleware/auth.js`, the Identity
Resolver as a pipeline step. The resolved identity is attached to the request
context and the chain continues, or the request is rejected. It issues no
resource store call. -/
def protect (env : Env) (req : Request) : StepOut :=
  match resolve env req with
  | Except.ok identity => { calls := [], signal := Signal.next { req with user := some identity } }
  | Except.error e => { calls := [], signal := Signal.fail (PipelineError.auth e) }

/-- Modelled from the spec: the gate built by `authorize(...roles)` of
`middleware/auth.js`. Without an attached identity the route is wired wrongly
(`ConfigurationError`); otherwise the gate permits iff the identity's role is
a member of the allowed roles and fails with `Forbidden` if not. -/
def authorize (roles : List Role) (req : Request) : StepOut :=
  match req.user with
  | none => { calls := [], signal := Signal.fail PipelineError.configuration }
  | some identity =>
    if identity.role ∈ roles then { calls := [], signal := Signal.next req }
    else { calls := [], signal := Signal.fail (PipelineError.auth AuthError.forbidden) }

/-- Modelled from the spec: `paginate` of the Result Paginator used by
`middleware/advancedResults.js`. `prev` is present iff `page > 1`, `next` iff
`skip + limit < total` with `skip = (page - 1) * limit`. -/
def paginate (total page limit : Nat) : Pagination :=
  let skip := (page - 1) * limit
  { prev := if 1 < page then some { page := page - 1, limit := limit } else none,
    next := if skip + limit < total then some { page := page + 1, limit := limit } else none }

/-- Modelled from the spec: the step built by `advancedResults(model,
populate)` of `middleware/advancedResults.js`. A translation error ends the
chain before any store call; otherwise the store given at registration is
asked for the total count and for one page of records, with the populate
instruction given at registration; a store error is a `QueryExecutionError`,
else the envelope is attached and the chain continues. -/
def advancedResults (env : Env) (model : String) (populate : Option String)
    (req : Request) : StepOut :=
  match env.translate req.query with
  | Except.error e => { calls := [], signal := Signal.fail e }
  | Except.ok d =>
    let skip := (d.page - 1) * d.limit
    let calls := [StoreCall.count model d.filter,
                  StoreCall.find model d.filter d.sort d.select skip d.limit populate]
    match env.count model d.filter, env.find model d populate with
    | some total, some data =>
      let envelope : ResultEnvelope :=
        { success := true, count := data.length,
          pagination := paginate total d.page d.limit, data := data }
      { calls := calls, signal := Signal.next { req with advancedResults := some envelope } }
    | _, _ => { calls := calls, signal := Signal.fail PipelineError.queryExecution }

/-- Behaviour of every step of the route table: the middleware as specified,
the controllers and the products router as given by the environment. -/
def behaviour (env : Env) : Step → Request → StepOut
  | Step.protect, req => protect env req
  | Step.authorize roles, req => authorize roles req
  | Step.advancedResults model populate, req => advancedResults env model populate req
  | s, req => env.controller s req

/-! ## The Category model of `models/Category.js`

A JavaScript string is a sequence of UTF-16 code units and `length` counts
them: a character outside the Basic Multilingual Plane counts twice. -/

/-- Value of `length` on a JavaScript string. -/
def jsLength (s : String) : Nat :=
  (s.toList.map (fun c => if c.toNat < 65536 then 1 else 2)).sum

/-- White space and line terminators removed by `String.prototype.trim`. -/
def isJsSpace (c : Char) : Bool :=
  decide (c.toNat ∈ [9, 10, 11, 12, 13, 32, 160, 5760, 8232, 8233, 8239, 8287, 12288, 65279]) ||
  (decide (8192 ≤ c.toNat) && decide (c.toNat ≤ 8202))

/-- The method `String.prototype.trim`. -/
def jsTrim (s : String) : String :=
  String.mk ((s.toList.dropWhile isJsSpace).reverse.dropWhile isJsSpace).reverse

/-- Options of a `String` path of a mongoose schema, as far as the Category
schema uses them. `required` and `maxlength` carry their message. -/
structure StringPath where
  required : Option String
  unique : Bool
  trim : Bool
  maxlength : Option (Nat × String)
  deriving DecidableEq, Repr

/-- The path `name` of `CategorySchema`. -/
def CategorySchema.name : StringPath :=
  { required := some "Please add a name",
    unique := true,
    trim := true,
    maxlength := some (50, "Name can not be more than 50 characters") }

/-- Setter of a string path: `trim` stores the trimmed value. -/
def StringPath.set (p : StringPath) (v : String) : String :=
  if p.trim then jsTrim v else v

/-- The `required` check of a string path: a string that is not empty. -/
def checkRequired (v : Option String) : Bool :=
  match v with
  | some s => jsLength s != 0
  | none => false

/-- The `maxlength` check of a string path: `v.length <= n`; a value that is
not set is not checked. -/
def checkMaxlength (n : Nat) (v : Option String) : Bool :=
  match v with
  | some s => decide (jsLength s ≤ n)
  | none => true

/-- Validators of a string path with their messages, `required` first. -/
def StringPath.validators (p : StringPath) : List ((Option String → Bool) × String) :=
  (match p.required with
   | some message => [(checkRequired, message)]
   | none => []) ++
  (match p.maxlength with
   | some (n, message) => [(checkMaxlength n, message)]
   | none => [])

/-- Validation of a stored value: the message of the first validator that
fails, `none` when all pass. -/
def StringPath.validate (p : StringPath) (v : Option String) : Option String :=
  (p.validators.find? (fun check => !check.1 v)).map Prod.snd

/-- Validation of the name a caller supplies for a category: the setter of
the path runs when the value is assigned, the validators on save. -/
def validateName (raw : Option String) : Option String :=
  CategorySchema.name.validate (raw.map CategorySchema.name.set)

/-- A category document: `name`, `slug` and `createdAt` (a timestamp). A path
that is not set is `none`. -/
structure Category where
  name : Option String
  slug : Option String
  createdAt : Nat
  deriving DecidableEq, Repr

/-- Options object passed to `slugify`. -/
structure SlugifyOptions where
  lower : Bool
  deriving DecidableEq, Repr

/-- What a hook leaves behind: the document and the arguments of every call
of `next` (`none` is `next()`, `some err` is `next(err)`). -/
structure HookResult where
  doc : Category
  nextCalls : List (Option String)
  deriving DecidableEq, Repr

/-- The hook `CategorySchema.pre('save', ...)`: `this.slug =
slugify(this.name, { lower: true }); next();`. The library function
`slugify` is a parameter; it throws when its argument is not a string, and
then `next` is never reached. -/
def preSave (slugify : String → SlugifyOptions → String) (doc : Category) :
    Except String HookResult :=
  match doc.name with
  | none => Except.error "slugify: string argument expected"
  | some name =>
    Except.ok { doc := { doc with slug := some (slugify name { lower := true }) },
                nextCalls := [none] }

/-- Whether a step is an instance of the list middleware. -/
def Step.isAdvancedResults : Step → Bool
  | Step.advancedResults _ _ => true
  | _ => false

/-- Whether a store call fetches records. -/
def StoreCall.isFind : StoreCall → Bool
  | StoreCall.find _ _ _ _ _ _ _ => true
  | _ => false

/-! ## Sample inputs -/

/-- A request context with nothing attached. -/
def blankRequest (m : Method) (path : List String) : Request :=
  { method := m, path := path, authorization := none, cookieToken := none,
    query := [], body := "", user := none, advancedResults := none }

/-- A sample environment: two tokens verify, one of a seller and one of a
plain user; the identity store knows no role; every query key becomes an equality filter on
the first page of 25; the store is empty; `createCategory` writes to the store
and answers 201, every other controller answers 200. -/
def sampleEnv : Env :=
  { bearer := fun header =>
      if header = "Bearer seller-token" then some "seller-token"
      else if header = "Bearer user-token" then some "user-token"
      else none,
    verify := fun token =>
      if token = "seller-token" then some { id := "u1", role := Role.seller, expiry := 100 }
      else if token = "user-token" then some { id := "u2", role := Role.user, expiry := 100 }
      else none,
    lookupRole := fun _ => none,
    translate := fun query =>
      Except.ok { filter := query.map (fun kv => (kv.1, { op := Operator.eq, value := kv.2 })),
                  sort := [("createdAt", false)], select := none, page := 1, limit := 25 },
    count := fun _ _ => some 0,
    find := fun _ _ _ => some [],
    controller := fun s _ =>
      match s with
      | Step.createCategory =>
        { calls := [StoreCall.other "Category" "create"], signal := Signal.respond 201 "created" }
      | _ => { calls := [], signal := Signal.respond 200 "ok" } }

/-- A request to POST / that carries the seller's token in a cookie and no
`Authorization` header. -/
def cookieRequest : Request :=
  { method := Method.POST, path := [], authorization := none,
    cookieToken := some "seller-token", query := [], body := "name=Books",
    user := none, advancedResults := none }

/-- A request to a path of one segment with a given `Authorization` header. -/
def bearerRequest (m : Method) (id : String) (header : String) : Request :=
  { method := m, path := [id], authorization := some header, cookieToken := none,
    query := [], body := "", user := none, advancedResults := none }

/-- The identity the sample environment resolves the plain user's token to. -/
def plainUser : CallerIdentity := { id := "u2", role := Role.user, tokenExpiry := 100 }

/-- A request to PUT /42 with the plain user's token. -/
def userPut : Request := bearerRequest Method.PUT "42" "Bearer user-token"

/-- A GET request to `/` with a query, a header and a body. -/
def filteredList : Request :=
  { method := Method.GET, path := [], authorization := some "Bearer user-token",
    cookieToken := none, query := [("name", "Books")], body := "ignored",
    user := none, advancedResults := none }

/-- A stand-in for the library function `slugify`: blanks become dashes and,
with `lower`, ASCII letters lower case. -/
def sampleSlugify (s : String) (options : SlugifyOptions) : String :=
  String.mk (s.toList.map (fun c =>
    if c = ' ' then '-' else if options.lower then c.toLower else c))

/-- A category whose caller supplied a slug of their own. -/
def homeGarden : Category :=
  { name := some "Home Garden", slug := some "custom-slug", createdAt := 1600000000 }

/-- A name of exactly 50 letters between blanks. -/
def fiftyLetters : String :=
  "  " ++ String.mk (List.replicate 50 'a') ++ " \t\n"

/-- A name of 51 letters between blanks. -/
def fiftyOneLetters : String :=
  " " ++ String.mk (List.replicate 51 'a') ++ "  "

/-! ## Facts about running a chain -/

theorem runChain_nil (beh : Step → Request → StepOut) (req : Request) :
    runChain beh [] req = { trace := [], calls := [], outcome := Signal.next req } := rfl

theorem runChain_next (beh : Step → Request → StepOut) (s : Step) (rest : List Step)
    (req req' : Request) (h : (beh s req).signal = Signal.next req') :
    runChain beh (s :: rest) req =
      { trace := (s, req) :: (runChain beh rest req').trace,
        calls := (beh s req).calls.map (fun c => (s, c)) ++ (runChain beh rest req').calls,
        outcome := (runChain beh rest req').outcome } := by
  simp only [runChain, h]

theorem runChain_fail (beh : Step → Request → StepOut) (s : Step) (rest : List Step)
    (req : Request) (e : PipelineError) (h : (beh s req).signal = Signal.fail e) :
    runChain beh (s :: rest) req =
      { trace := [(s, req)], calls := (beh s req).calls.map (fun c => (s, c)),
        outcome := Signal.fail e } := by
  simp only [runChain, h]

theorem runChain_respond (beh : Step → Request → StepOut) (s : Step) (rest : List Step)
    (req : Request) (status : Nat) (body : String)
    (h : (beh s req).signal = Signal.respond status body) :
    runChain beh (s :: rest) req =
      { trace := [(s, req)], calls := (beh s req).calls.map (fun c => (s, c)),
        outcome := Signal.respond status body } := by
  simp only [runChain, h]

theorem runChain_trace_head (beh : Step → Request → StepOut) (s : Step) (rest : List Step)
    (req : Request) :
    ∃ t, (runChain beh (s :: rest) req).trace = (s, req) :: t := by
  cases h : (beh s req).signal with
  | next r => exact ⟨_, by rw [runChain_next beh s rest req r h]⟩
  | fail e => exact ⟨_, by rw [runChain_fail beh s rest req e h]⟩
  | respond c b => exact ⟨_, by rw [runChain_respond beh s rest req c b h]⟩

theorem mem_router_iff (l : Layer) :
    l ∈ router ↔ l = useProducts ∨ l = getRoot ∨ l = postRoot ∨ l = getById ∨
      l = putById ∨ l = deleteById := by
  simp [router]

/-! ## The handler chains of the router -/

theorem dispatch_mem_router (req : Request) (l : Layer) (h : dispatch req = some l) :
    l ∈ router :=
  List.mem_of_find?_eq_some h

theorem dispatch_root (req : Request) (hp : req.path = []) :
    dispatch req =
      match req.method with
      | Method.GET => some getRoot
      | Method.HEAD => some getRoot
      | Method.POST => some postRoot
      | _ => none := by
  cases hm : req.method <;>
    simp [dispatch, router, Layer.accepts, Layer.handles, matchPath, hm, hp, useProducts,
      getRoot, postRoot, getById, putById, deleteById]

theorem dispatch_by_id (req : Request) (id : String) (hp : req.path = [id]) (hid : id ≠ "") :
    dispatch req =
      match req.method with
      | Method.GET => some getById
      | Method.HEAD => some getById
      | Method.PUT => some putById
      | Method.DELETE => some deleteById
      | _ => none := by
  cases hm : req.method <;>
    simp [dispatch, router, Layer.accepts, Layer.handles, matchPath, hm, hp, hid, useProducts,
      getRoot, postRoot, getById, putById, deleteById]

/-- C1: on every state-mutating registration of the categories router, which
are POST /, PUT /:id and DELETE /:id, `protect` is the first step of the
chain, followed by the Role Gate and then the resource handler
(createCategory, updateCategory, deleteCategory); and whatever the steps do,
every run of the chain invokes `protect` first, on the incoming request. -/
theorem protect_first_on_mutating_routes (l : Layer) (beh : Step → Request → StepOut)
    (req : Request) (hl : l ∈ router) (hm : l.mutates = true) :
    router.filter Layer.mutates = [postRoot, putById, deleteById] ∧
    l.chain.head? = some Step.protect ∧
    (∃ h, l.chain = [Step.protect, sellerOrAdmin, h] ∧
      h ∈ [Step.createCategory, Step.updateCategory, Step.deleteCategory]) ∧
    (∃ t, (runChain beh l.chain req).trace = (Step.protect, req) :: t) := by
  refine ⟨by decide, ?_⟩
  rw [mem_router_iff] at hl
  rcases hl with rfl | rfl | rfl | rfl | rfl | rfl
  · exact absurd hm (by decide)
  · exact absurd hm (by decide)
  · exact ⟨rfl, ⟨Step.createCategory, rfl, by simp⟩, runChain_trace_head beh _ _ req⟩
  · exact absurd hm (by decide)
  · exact ⟨rfl, ⟨Step.updateCategory, rfl, by simp⟩, runChain_trace_head beh _ _ req⟩
  · exact ⟨rfl, ⟨Step.deleteCategory, rfl, by simp⟩, runChain_trace_head beh _ _ req⟩

/-- C1 at POST / with the sample environment: the run starts with `protect`. -/
theorem protect_first_on_mutating_routes_witness :
    postRoot ∈ router ∧ postRoot.mutates = true ∧
    postRoot.chain.head? = some Step.protect ∧
    ∃ t, (runChain (behaviour sampleEnv) postRoot.chain (blankRequest Method.POST [])).trace =
      (Step.protect, blankRequest Method.POST []) :: t :=
  ⟨by decide, by decide,
   (protect_first_on_mutating_routes postRoot (behaviour sampleEnv)
      (blankRequest Method.POST []) (by decide) (by decide)).2.1,
   (protect_first_on_mutating_routes postRoot (behaviour sampleEnv)
      (blankRequest Method.POST []) (by decide) (by decide)).2.2.2⟩

theorem trace_step_mem (beh : Step → Request → StepOut) (chain : List Step) :
    ∀ (req : Request) (s : Step) (r : Request),
      (s, r) ∈ (runChain beh chain req).trace → s ∈ chain := by
  induction chain with
  | nil => intro req s r h; simp [runChain_nil] at h
  | cons a rest ih =>
    intro req s r h
    cases hs : (beh a req).signal with
    | next r1 =>
      rw [runChain_next beh a rest req r1 hs] at h
      simp only [List.mem_cons, Prod.mk.injEq] at h
      rcases h with ⟨rfl, _⟩ | h
      · simp
      · exact List.mem_cons_of_mem _ (ih r1 s r h)
    | fail e =>
      rw [runChain_fail beh a rest req e hs] at h
      simp only [List.mem_singleton, Prod.mk.injEq] at h
      simp [h.1]
    | respond c b =>
      rw [runChain_respond beh a rest req c b hs] at h
      simp only [List.mem_singleton, Prod.mk.injEq] at h
      simp [h.1]

theorem trace_second (beh : Step → Request → StepOut) (a b : Step) (rest : List Step)
    (req r : Request) (hab : b ≠ a) (hb : b ∉ rest)
    (h : (b, r) ∈ (runChain beh (a :: b :: rest) req).trace) :
    (beh a req).signal = Signal.next r := by
  cases hs : (beh a req).signal with
  | next r1 =>
    rw [runChain_next beh a _ req r1 hs] at h
    simp only [List.mem_cons, Prod.mk.injEq] at h
    rcases h with ⟨h1, _⟩ | h
    · exact absurd h1 hab
    · cases hs2 : (beh b r1).signal with
      | next r2 =>
        rw [runChain_next beh b rest r1 r2 hs2] at h
        simp only [List.mem_cons, Prod.mk.injEq] at h
        rcases h with ⟨_, h2⟩ | h
        · rw [h2]
        · exact absurd (trace_step_mem beh rest r2 b r h) hb
      | fail e =>
        rw [runChain_fail beh b rest r1 e hs2] at h
        simp only [List.mem_singleton, Prod.mk.injEq] at h
        rw [h.2]
      | respond c d =>
        rw [runChain_respond beh b rest r1 c d hs2] at h
        simp only [List.mem_singleton, Prod.mk.injEq] at h
        rw [h.2]
  | fail e =>
    rw [runChain_fail beh a _ req e hs] at h
    simp only [List.mem_singleton, Prod.mk.injEq] at h
    exact absurd h.1 hab
  | respond c d =>
    rw [runChain_respond beh a _ req c d hs] at h
    simp only [List.mem_singleton, Prod.mk.injEq] at h
    exact absurd h.1 hab

theorem gate_receives_identity (beh : Step → Request → StepOut) (h : Step) (req : Request)
    (hh : h.isAuthorize = false)
    (hprot : ∀ r r', (beh Step.protect r).signal = Signal.next r' → r'.user.isSome = true)
    (s : Step) (r : Request)
    (hmem : (s, r) ∈ (runChain beh [Step.protect, sellerOrAdmin, h] req).trace)
    (hs : s.isAuthorize = true) : r.user.isSome = true := by
  have hin := trace_step_mem beh _ req s r hmem
  simp only [List.mem_cons, List.mem_singleton, List.not_mem_nil, or_false] at hin
  rcases hin with rfl | rfl | rfl
  · simp [Step.isAuthorize] at hs
  · refine hprot req r (trace_second beh Step.protect sellerOrAdmin [h] req r (by decide) ?_ hmem)
    intro hmem2
    simp only [List.mem_singleton] at hmem2
    rw [← hmem2] at hh
    simp [sellerOrAdmin, Step.isAuthorize] at hh
  · rw [hh] at hs
    exact absurd hs (by decide)

/-- C2: the registrations of the categories router whose chain contains the
Role Gate are POST /, GET /:id, PUT /:id and DELETE /:id; in every chain of
the router each occurrence of `authorize(...)` has `protect` at an earlier
position; and when `protect` continues only with a caller identity attached,
every run of a chain of the router invokes the Role Gate on a request context
that carries an identity, so the gate is never reached without one. -/
theorem protect_precedes_authorize (l : Layer) (beh : Step → Request → StepOut)
    (req : Request) (hl : l ∈ router)
    (hprot : ∀ r r', (beh Step.protect r).signal = Signal.next r' → r'.user.isSome = true) :
    router.filter (fun k => k.chain.any Step.isAuthorize) =
      [postRoot, getById, putById, deleteById] ∧
    (∀ (i : Nat) (roles : List Role), l.chain[i]? = some (Step.authorize roles) →
      ∃ j : Nat, j < i ∧ l.chain[j]? = some Step.protect) ∧
    (∀ s r, (s, r) ∈ (runChain beh l.chain req).trace → s.isAuthorize = true →
      r.user.isSome = true) := by
  refine ⟨by decide, ?_, ?_⟩
  · intro i roles hi
    rw [mem_router_iff] at hl
    rcases hl with rfl | rfl | rfl | rfl | rfl | rfl <;>
      (rcases i with _ | _ | _ | i <;>
        simp [useProducts, getRoot, postRoot, getById, putById, deleteById, sellerOrAdmin] at hi ⊢)
  · intro s r hmem hs
    rw [mem_router_iff] at hl
    rcases hl with rfl | rfl | rfl | rfl | rfl | rfl
    · have hin := trace_step_mem beh _ req s r hmem
      simp only [useProducts, List.mem_singleton] at hin
      rw [hin] at hs
      exact absurd hs (by decide)
    · have hin := trace_step_mem beh _ req s r hmem
      simp only [getRoot, List.mem_cons, List.mem_singleton, List.not_mem_nil, or_false] at hin
      rcases hin with rfl | rfl <;> exact absurd hs (by decide)
    · exact gate_receives_identity beh Step.createCategory req rfl hprot s r hmem hs
    · exact gate_receives_identity beh Step.getCategory req rfl hprot s r hmem hs
    · exact gate_receives_identity beh Step.updateCategory req rfl hprot s r hmem hs
    · exact gate_receives_identity beh Step.deleteCategory req rfl hprot s r hmem hs

/-- C2 at GET /:id with the sample environment and the seller's token. -/
theorem protect_precedes_authorize_witness :
    getById ∈ router ∧
    (∀ r r', (behaviour sampleEnv Step.protect r).signal = Signal.next r' →
      r'.user.isSome = true) ∧
    (∀ (i : Nat) (roles : List Role), getById.chain[i]? = some (Step.authorize roles) →
      ∃ j : Nat, j < i ∧ getById.chain[j]? = some Step.protect) ∧
    (∀ s r, (s, r) ∈ (runChain (behaviour sampleEnv) getById.chain
        (bearerRequest Method.GET "42" "Bearer seller-token")).trace →
      s.isAuthorize = true → r.user.isSome = true) :=
  have hprot : ∀ r r', (behaviour sampleEnv Step.protect r).signal = Signal.next r' →
      r'.user.isSome = true := by
    intro r r' h
    simp only [behaviour, protect] at h
    split at h
    · simp only [Signal.next.injEq] at h
      rw [← h]
      rfl
    · simp at h
  ⟨by decide, hprot,
   (protect_precedes_authorize getById (behaviour sampleEnv)
      (bearerRequest Method.GET "42" "Bearer seller-token") (by decide) hprot).2.1,
   (protect_precedes_authorize getById (behaviour sampleEnv)
      (bearerRequest Method.GET "42" "Bearer seller-token") (by decide) hprot).2.2⟩

/-! ## Authentication and the role gate on the gated routes -/

theorem protect_of_resolve_ok (env : Env) (req : Request) (u : CallerIdentity)
    (h : resolve env req = Except.ok u) :
    protect env req = { calls := [], signal := Signal.next { req with user := some u } } := by
  simp only [protect, h]

theorem protect_of_resolve_error (env : Env) (req : Request) (e : AuthError)
    (h : resolve env req = Except.error e) :
    protect env req = { calls := [], signal := Signal.fail (PipelineError.auth e) } := by
  simp only [protect, h]

theorem resolve_without_header (env : Env) (req : Request)
    (hh : req.authorization = none) :
    resolve env req = Except.error AuthError.noCredential := by
  simp [resolve, findCredential, hh]

theorem run_rejected_by_protect (env : Env) (rest : List Step) (req : Request) (e : AuthError)
    (h : resolve env req = Except.error e) :
    runChain (behaviour env) (Step.protect :: rest) req =
      { trace := [(Step.protect, req)], calls := [],
        outcome := Signal.fail (PipelineError.auth e) } := by
  have hp : behaviour env Step.protect req =
      { calls := [], signal := Signal.fail (PipelineError.auth e) } := by
    simp only [behaviour, protect_of_resolve_error env req e h]
  rw [runChain_fail (behaviour env) Step.protect rest req (PipelineError.auth e) (by rw [hp])]
  rw [hp]
  rfl

/-- C3: every request without an `Authorization` header, whatever else it
carries, sent to a state-mutating route of the categories router (POST /,
PUT /:id, DELETE /:id) is rejected by `protect` with `NoCredential`, and the
run ends with HTTP status 401; `protect` is the only step invoked, so neither
the Role Gate nor the handler (createCategory, updateCategory,
deleteCategory) runs, and no resource store call is issued. -/
theorem missing_header_rejected (env : Env) (l : Layer) (req : Request) (clientCaused : Bool)
    (hl : l ∈ router) (hm : l.mutates = true) (hh : req.authorization = none) :
    (runChain (behaviour env) l.chain req).outcome =
      Signal.fail (PipelineError.auth AuthError.noCredential) ∧
    (runChain (behaviour env) l.chain req).status clientCaused = some 401 ∧
    (runChain (behaviour env) l.chain req).steps = [Step.protect] ∧
    (∀ s ∈ (runChain (behaviour env) l.chain req).steps,
      s.isAuthorize = false ∧ s.isHandler = false) ∧
    (runChain (behaviour env) l.chain req).calls = [] := by
  have hr := resolve_without_header env req hh
  rw [mem_router_iff] at hl
  rcases hl with rfl | rfl | rfl | rfl | rfl | rfl
  · exact absurd hm (by decide)
  · exact absurd hm (by decide)
  · simp [postRoot, run_rejected_by_protect env _ req _ hr, Run.steps, Run.status, errorStatus,
      AuthError.httpStatus, Step.isAuthorize, Step.isHandler]
  · exact absurd hm (by decide)
  · simp [putById, run_rejected_by_protect env _ req _ hr, Run.steps, Run.status, errorStatus,
      AuthError.httpStatus, Step.isAuthorize, Step.isHandler]
  · simp [deleteById, run_rejected_by_protect env _ req _ hr, Run.steps, Run.status,
      errorStatus, AuthError.httpStatus, Step.isAuthorize, Step.isHandler]

/-- C3 at a POST to `/` that has no `Authorization` header and carries a
seller's token in a cookie: the request is dispatched to the POST / route,
answered 401, and only `protect` runs. -/
theorem missing_header_rejected_witness :
    postRoot ∈ router ∧ postRoot.mutates = true ∧ cookieRequest.authorization = none ∧
    handle (behaviour sampleEnv) cookieRequest =
      some (runChain (behaviour sampleEnv) postRoot.chain cookieRequest) ∧
    (runChain (behaviour sampleEnv) postRoot.chain cookieRequest).status false = some 401 ∧
    (runChain (behaviour sampleEnv) postRoot.chain cookieRequest).steps = [Step.protect] ∧
    (runChain (behaviour sampleEnv) postRoot.chain cookieRequest).calls = [] :=
  ⟨by decide, by decide, rfl, by decide,
   (missing_header_rejected sampleEnv postRoot cookieRequest false
      (by decide) (by decide) rfl).2.1,
   (missing_header_rejected sampleEnv postRoot cookieRequest false
      (by decide) (by decide) rfl).2.2.1,
   (missing_header_rejected sampleEnv postRoot cookieRequest false
      (by decide) (by decide) rfl).2.2.2.2⟩

theorem run_gated_forbidden (env : Env) (roles : List Role) (h : Step) (req : Request)
    (u : CallerIdentity) (hu : resolve env req = Except.ok u) (hr : u.role ∉ roles) :
    runChain (behaviour env) [Step.protect, Step.authorize roles, h] req =
      { trace := [(Step.protect, req), (Step.authorize roles, { req with user := some u })],
        calls := [],
        outcome := Signal.fail (PipelineError.auth AuthError.forbidden) } := by
  have hp : behaviour env Step.protect req =
      { calls := [], signal := Signal.next { req with user := some u } } := by
    simp only [behaviour, protect_of_resolve_ok env req u hu]
  have hg : behaviour env (Step.authorize roles) { req with user := some u } =
      { calls := [], signal := Signal.fail (PipelineError.auth AuthError.forbidden) } := by
    simp [behaviour, authorize, hr]
  rw [runChain_next (behaviour env) Step.protect _ req { req with user := some u } (by rw [hp]),
    runChain_fail (behaviour env) (Step.authorize roles) [h] { req with user := some u }
      (PipelineError.auth AuthError.forbidden) (by rw [hg]), hp, hg]
  rfl

theorem gate_roles_of_router (l : Layer) (roles : List Role) (hl : l ∈ router)
    (hg : Step.authorize roles ∈ l.chain) :
    roles = [Role.seller, Role.admin] ∧
    ∃ h, l.chain = [Step.protect, Step.authorize roles, h] ∧ h.isHandler = true := by
  rw [mem_router_iff] at hl
  rcases hl with rfl | rfl | rfl | rfl | rfl | rfl <;>
    simp [useProducts, getRoot, postRoot, getById, putById, deleteById, sellerOrAdmin] at hg <;>
    subst hg
  · exact ⟨rfl, Step.createCategory, rfl, rfl⟩
  · exact ⟨rfl, Step.getCategory, rfl, rfl⟩
  · exact ⟨rfl, Step.updateCategory, rfl, rfl⟩
  · exact ⟨rfl, Step.deleteCategory, rfl, rfl⟩

/-- C4: on each registration of the categories router whose chain contains
the Role Gate (POST /, GET /:id, PUT /:id, DELETE /:id) and for every request
context with an attached caller identity, the gate lets the request through
iff the identity's role is `seller` or `admin`; an identity with role `user`
is rejected with `Forbidden` (HTTP 403), and a request that `protect`
resolves to such an identity ends at the gate: the steps invoked are
`protect` and the gate, the handler does not run. -/
theorem role_gate_on_gated_routes (env : Env) (l : Layer) (roles : List Role)
    (r : Request) (u : CallerIdentity)
    (hl : l ∈ router) (hg : Step.authorize roles ∈ l.chain) (hu : r.user = some u) :
    ((authorize roles r).signal = Signal.next r ↔ (u.role = Role.seller ∨ u.role = Role.admin)) ∧
    (u.role = Role.user →
      (authorize roles r).signal = Signal.fail (PipelineError.auth AuthError.forbidden) ∧
      AuthError.forbidden.httpStatus = 403 ∧
      ∀ req, resolve env req = Except.ok u →
        (runChain (behaviour env) l.chain req).outcome =
          Signal.fail (PipelineError.auth AuthError.forbidden) ∧
        (runChain (behaviour env) l.chain req).steps = [Step.protect, Step.authorize roles] ∧
        ∀ s ∈ (runChain (behaviour env) l.chain req).steps, s.isHandler = false) := by
  obtain ⟨hroles, h, hchain, _⟩ := gate_roles_of_router l roles hl hg
  subst hroles
  refine ⟨?_, ?_⟩
  · cases hrole : u.role <;> simp [authorize, hu, hrole]
  · intro hrole
    refine ⟨by simp [authorize, hu, hrole], rfl, ?_⟩
    intro req hreq
    rw [hchain, run_gated_forbidden env _ h req u hreq (by simp [hrole])]
    simp [Run.steps, Step.isHandler]

/-- C4 at PUT /42 with the token of a plain user: the gate answers
`Forbidden` and the run stops after `protect` and the gate. -/
theorem role_gate_on_gated_routes_witness :
    putById ∈ router ∧ Step.authorize [Role.seller, Role.admin] ∈ putById.chain ∧
    resolve sampleEnv userPut = Except.ok plainUser ∧
    (authorize [Role.seller, Role.admin] { userPut with user := some plainUser }).signal =
      Signal.fail (PipelineError.auth AuthError.forbidden) ∧
    (runChain (behaviour sampleEnv) putById.chain userPut).steps =
      [Step.protect, Step.authorize [Role.seller, Role.admin]] :=
  ⟨by decide, by decide, by rfl,
   ((role_gate_on_gated_routes sampleEnv putById [Role.seller, Role.admin]
      { userPut with user := some plainUser } plainUser (by decide) (by decide) rfl).2 rfl).1,
   (((role_gate_on_gated_routes sampleEnv putById [Role.seller, Role.admin]
      { userPut with user := some plainUser } plainUser (by decide) (by decide) rfl).2 rfl).2.2
        userPut (by rfl)).2.1⟩

/-! ## The list route and the swagger annotations -/

/-- C5, counterexample: the chain registered for GET / is not `protect`,
the Role Gate, the list middleware and `getCategories`; it does not contain
`protect` at all. -/
theorem list_chain_is_not_gated :
    chainOf Method.GET [] ≠
      some [Step.protect, sellerOrAdmin, Step.advancedResults "Category" (some "products"),
            Step.getCategories] ∧
    (∀ chain, chainOf Method.GET [] = some chain → Step.protect ∉ chain) := by
  refine ⟨by decide, ?_⟩
  intro chain h
  have hc : chainOf Method.GET [] = some getRoot.chain := by decide
  rw [hc] at h
  simp only [Option.some.injEq] at h
  rw [← h]
  decide

/-- C5, as amended: the chain registered for the list endpoint GET / is, in
order, the list middleware `advancedResults(Category, 'products')` and then
the handler `getCategories`; it contains neither `protect` nor the Role Gate,
every GET request to `/` is dispatched to it, and whatever the steps do the
first step a run invokes is the list middleware. -/
theorem list_chain_order (beh : Step → Request → StepOut) (req : Request)
    (hm : req.method = Method.GET) (hp : req.path = []) :
    chainOf Method.GET [] =
      some [Step.advancedResults "Category" (some "products"), Step.getCategories] ∧
    dispatch req = some getRoot ∧
    getRoot.chain = [Step.advancedResults "Category" (some "products"), Step.getCategories] ∧
    Step.protect ∉ getRoot.chain ∧
    getRoot.chain.any Step.isAuthorize = false ∧
    (∃ t, (runChain beh getRoot.chain req).trace =
      (Step.advancedResults "Category" (some "products"), req) :: t) := by
  refine ⟨by decide, ?_, rfl, by decide, by decide, runChain_trace_head beh _ _ req⟩
  simp [dispatch, router, Layer.accepts, Layer.handles, matchPath, hm, hp, useProducts, getRoot]

/-- C5 as amended, at a GET request to `/` with the sample environment. -/
theorem list_chain_order_witness :
    dispatch (blankRequest Method.GET []) = some getRoot ∧
    (runChain (behaviour sampleEnv) getRoot.chain (blankRequest Method.GET [])).steps =
      [Step.advancedResults "Category" (some "products"), Step.getCategories] :=
  ⟨(list_chain_order (behaviour sampleEnv) (blankRequest Method.GET []) rfl rfl).2.1, by decide⟩

/-- C6: for every registration of the categories router, the swagger block
written above it declares `security: bearerAuth` iff its handler chain
contains `protect`: both hold for POST /, GET /:id, PUT /:id and DELETE /:id,
neither holds for GET /. -/
theorem swagger_security_matches_wiring (l : Layer) (hl : l ∈ router) :
    (l.declaresBearer = true ↔ Step.protect ∈ l.chain) ∧
    router.filter Layer.declaresBearer = [postRoot, getById, putById, deleteById] ∧
    router.filter (fun k => decide (Step.protect ∈ k.chain)) =
      [postRoot, getById, putById, deleteById] ∧
    getRoot.declaresBearer = false ∧ Step.protect ∉ getRoot.chain := by
  refine ⟨?_, by decide, by decide, by decide, by decide⟩
  rw [mem_router_iff] at hl
  rcases hl with rfl | rfl | rfl | rfl | rfl | rfl <;> decide

/-- C6 at POST / and at GET /. -/
theorem swagger_security_matches_wiring_witness :
    (postRoot.declaresBearer = true ↔ Step.protect ∈ postRoot.chain) ∧
    (getRoot.declaresBearer = true ↔ Step.protect ∈ getRoot.chain) ∧
    postRoot.declaresBearer = true ∧ getRoot.declaresBearer = false :=
  ⟨(swagger_security_matches_wiring postRoot (by decide)).1,
   (swagger_security_matches_wiring getRoot (by decide)).1, by decide, by decide⟩

/-! ## The list middleware is bound at registration -/

theorem calls_origin (beh : Step → Request → StepOut) (chain : List Step) :
    ∀ (req : Request) (s : Step) (c : StoreCall),
      (s, c) ∈ (runChain beh chain req).calls → s ∈ chain ∧ ∃ r, c ∈ (beh s r).calls := by
  induction chain with
  | nil => intro req s c h; simp [runChain_nil] at h
  | cons a rest ih =>
    intro req s c h
    cases hs : (beh a req).signal with
    | next r1 =>
      rw [runChain_next beh a rest req r1 hs] at h
      simp only [List.mem_append, List.mem_map, Prod.mk.injEq] at h
      rcases h with ⟨c', hc', rfl, rfl⟩ | h
      · exact ⟨by simp, req, hc'⟩
      · exact ⟨List.mem_cons_of_mem _ (ih r1 s c h).1, (ih r1 s c h).2⟩
    | fail e =>
      rw [runChain_fail beh a rest req e hs] at h
      simp only [List.mem_map, Prod.mk.injEq] at h
      obtain ⟨c', hc', rfl, rfl⟩ := h
      exact ⟨by simp, req, hc'⟩
    | respond k b =>
      rw [runChain_respond beh a rest req k b hs] at h
      simp only [List.mem_map, Prod.mk.injEq] at h
      obtain ⟨c', hc', rfl, rfl⟩ := h
      exact ⟨by simp, req, hc'⟩

theorem advancedResults_calls (env : Env) (model : String) (populate : Option String)
    (req : Request) (c : StoreCall) (h : c ∈ (advancedResults env model populate req).calls) :
    c.store = model ∧ (c.isFind = true → c.populate = populate) := by
  unfold advancedResults at h
  split at h
  · simp at h
  · split at h <;>
    · simp only [List.mem_cons, List.mem_singleton, List.not_mem_nil, or_false] at h
      rcases h with rfl | rfl <;> simp [StoreCall.store, StoreCall.isFind, StoreCall.populate]

/-- C9: the list route GET / holds one instance of the list middleware,
`advancedResults(Category, 'products')`, whose store and populate spec are
fixed in the route table; any two GET requests to `/`, whatever their query
parameters, headers or body, are dispatched to that same registration, and
every store call the middleware issues while serving either of them goes to
the store `Category`, each fetch with the populate spec `products`. -/
theorem list_middleware_bound_at_registration (env : Env) (r₁ r₂ : Request)
    (hm₁ : r₁.method = Method.GET) (hp₁ : r₁.path = [])
    (hm₂ : r₂.method = Method.GET) (hp₂ : r₂.path = []) :
    dispatch r₁ = some getRoot ∧ dispatch r₂ = some getRoot ∧
    getRoot.chain.filter Step.isAdvancedResults =
      [Step.advancedResults "Category" (some "products")] ∧
    (∀ r ∈ [r₁, r₂], ∀ s c, (s, c) ∈ (runChain (behaviour env) getRoot.chain r).calls →
      s.isAdvancedResults = true →
      c.store = "Category" ∧ (c.isFind = true → c.populate = some "products")) := by
  refine ⟨?_, ?_, by decide, ?_⟩
  · simp [dispatch, router, Layer.accepts, Layer.handles, matchPath, hm₁, hp₁, useProducts,
      getRoot]
  · simp [dispatch, router, Layer.accepts, Layer.handles, matchPath, hm₂, hp₂, useProducts,
      getRoot]
  · intro r _ s c hmem hs
    obtain ⟨hin, r', hc⟩ := calls_origin (behaviour env) _ r s c hmem
    simp only [getRoot, List.mem_cons, List.mem_singleton, List.not_mem_nil, or_false] at hin
    rcases hin with rfl | rfl
    · exact advancedResults_calls env "Category" (some "products") r' c hc
    · exact absurd hs (by decide)

/-- C9 at two GET requests to `/` that differ in query, header and body:
both are served by the same registration, and the calls issued for the one
with a query go to `Category` with the populate spec `products`. -/
theorem list_middleware_bound_at_registration_witness :
    dispatch (blankRequest Method.GET []) = some getRoot ∧
    dispatch filteredList = some getRoot ∧
    (runChain (behaviour sampleEnv) getRoot.chain filteredList).calls =
      [(Step.advancedResults "Category" (some "products"),
         StoreCall.count "Category" [("name", { op := Operator.eq, value := "Books" })]),
       (Step.advancedResults "Category" (some "products"),
         StoreCall.find "Category" [("name", { op := Operator.eq, value := "Books" })]
           [("createdAt", false)] none 0 25 (some "products"))] ∧
    (∀ r ∈ [blankRequest Method.GET [], filteredList], ∀ s c,
      (s, c) ∈ (runChain (behaviour sampleEnv) getRoot.chain r).calls →
      s.isAdvancedResults = true →
      c.store = "Category" ∧ (c.isFind = true → c.populate = some "products")) :=
  ⟨(list_middleware_bound_at_registration sampleEnv (blankRequest Method.GET []) filteredList
      rfl rfl rfl rfl).1,
   (list_middleware_bound_at_registration sampleEnv (blankRequest Method.GET []) filteredList
      rfl rfl rfl rfl).2.1,
   by decide,
   (list_middleware_bound_at_registration sampleEnv (blankRequest Method.GET []) filteredList
      rfl rfl rfl rfl).2.2.2⟩

/-! ## The Category model -/

/-- C7: for every category document whose name is a string, the pre-save
hook returns normally with `slug` set to `slugify(name, { lower: true })`,
with `name` and `createdAt` as they were, and with `next` called exactly once
and without an error; the result does not depend on the slug the document had
before, so a slug supplied by the caller is overwritten. -/
theorem preSave_overwrites_slug (slugify : String → SlugifyOptions → String)
    (doc : Category) (name : String) (hn : doc.name = some name) :
    preSave slugify doc =
      Except.ok { doc := { name := some name,
                           slug := some (slugify name { lower := true }),
                           createdAt := doc.createdAt },
                  nextCalls := [none] } ∧
    (∀ previous, preSave slugify { doc with slug := previous } = preSave slugify doc) := by
  cases doc with
  | mk n sl c =>
    simp only at hn
    subst hn
    exact ⟨rfl, fun _ => rfl⟩

/-- C7 at a category that came with a slug of its own. -/
theorem preSave_overwrites_slug_witness :
    preSave sampleSlugify homeGarden =
      Except.ok { doc := { name := some "Home Garden", slug := some "home-garden",
                           createdAt := 1600000000 },
                  nextCalls := [none] } ∧
    (∀ previous, preSave sampleSlugify { homeGarden with slug := previous } =
      preSave sampleSlugify homeGarden) :=
  ⟨(preSave_overwrites_slug sampleSlugify homeGarden "Home Garden" rfl).1.trans (by rfl),
   (preSave_overwrites_slug sampleSlugify homeGarden "Home Garden" rfl).2⟩

theorem validateName_some (raw : String) :
    validateName (some raw) =
      if jsLength (jsTrim raw) = 0 then some "Please add a name"
      else if jsLength (jsTrim raw) ≤ 50 then none
      else some "Name can not be more than 50 characters" := by
  have hR : checkRequired (some (jsTrim raw)) = (jsLength (jsTrim raw) != 0) := rfl
  have hM : checkMaxlength 50 (some (jsTrim raw)) = decide (jsLength (jsTrim raw) ≤ 50) := rfl
  simp only [validateName, StringPath.validate, StringPath.validators, CategorySchema.name,
    StringPath.set, Option.map_some', if_true, List.cons_append, List.nil_append,
    List.find?, hR, hM]
  by_cases h0 : jsLength (jsTrim raw) = 0
  · simp [h0]
  · have hb : (jsLength (jsTrim raw) != 0) = true := by simp [h0]
    by_cases h1 : jsLength (jsTrim raw) ≤ 50
    · simp [h0, hb, h1]
    · simp [h0, hb, h1]

/-- C8: for every name a caller supplies, the validation of the path `name`
fails with the message 'Name can not be more than 50 characters' iff the
trimmed name is longer than 50 characters (counted as `length` does); a name
whose trimmed length is exactly 50 passes the `maxlength` check and the
validation of the path. -/
theorem name_maxlength_after_trim (raw : String) :
    CategorySchema.name.maxlength = some (50, "Name can not be more than 50 characters") ∧
    (validateName (some raw) = some "Name can not be more than 50 characters" ↔
      50 < jsLength (jsTrim raw)) ∧
    (jsLength (jsTrim raw) = 50 →
      checkMaxlength 50 (some (CategorySchema.name.set raw)) = true ∧
      validateName (some raw) = none) := by
  refine ⟨rfl, ?_, ?_⟩
  · rw [validateName_some]
    by_cases h0 : jsLength (jsTrim raw) = 0
    · simp [h0]
    · by_cases h1 : jsLength (jsTrim raw) ≤ 50
      · simp [h0, h1]
      · simp only [h0, h1, if_false, true_iff]
        omega
  · intro h
    refine ⟨?_, ?_⟩
    · simp [checkMaxlength, CategorySchema.name, StringPath.set, h]
    · rw [validateName_some]
      simp [h]

/-- C8 at a name of 50 letters and at a name of 51 letters, both padded with
white space: the first passes, the second fails with the length message. -/
theorem name_maxlength_after_trim_witness :
    jsLength (jsTrim fiftyLetters) = 50 ∧ validateName (some fiftyLetters) = none ∧
    jsLength (jsTrim fiftyOneLetters) = 51 ∧
    validateName (some fiftyOneLetters) = some "Name can not be more than 50 characters" :=
  have h50 : jsLength (jsTrim fiftyLetters) = 50 := by decide
  have h51 : jsLength (jsTrim fiftyOneLetters) = 51 := by decide
  ⟨h50, ((name_maxlength_after_trim fiftyLetters).2.2 h50).2, h51,
   (name_maxlength_after_trim fiftyOneLetters).2.1.mpr (by rw [h51]; decide)⟩

end Emporium
